import Mathlib

/-!
Shallow embedding of the db-migration-validator core: the four comparators
(row count, column, constraint, routine), the discovery/traversal
orchestrator of main.py, and the constraint queries of the two connectors.

Python conventions modelled explicitly:
- str.upper() is modelled on ASCII as a character-wise map (pyUpper);
- sorted(...) over strings is lexicographic on code points (strle);
- dict comprehensions keep the LAST binding for a repeated key (dictGet);
- Python truthiness of an optional string (None and "" are falsy) is
  modelled by optStrTruthy;
- heterogeneous result-cell values (str / int / None) are modelled by Value.
-/

namespace DBMV

/-- Python str.upper restricted to ASCII: uppercase every character. -/
def pyUpper (s : String) : String := String.mk (s.data.map Char.toUpper)

/-- Lexicographic code-point comparison of character lists (Python string <=). -/
def charListLe : List Char → List Char → Bool
  | [], _ => true
  | _ :: _, [] => false
  | a :: as, b :: bs =>
    if a.toNat < b.toNat then true
    else if b.toNat < a.toNat then false
    else charListLe as bs

/-- Python string ordering used by sorted(...): code-point lexicographic. -/
def strle (a b : String) : Prop := charListLe a.data b.data = true

instance : DecidableRel strle := fun a b => by
  unfold strle; infer_instance

theorem charListLe_total : ∀ a b : List Char, charListLe a b = true ∨ charListLe b a = true := by
  intro a
  induction a with
  | nil => intro b; left; rfl
  | cons x xs ih =>
    intro b
    cases b with
    | nil => right; rfl
    | cons y ys =>
      simp only [charListLe]
      rcases Nat.lt_trichotomy x.toNat y.toNat with h | h | h
      · left; simp [h]
      · have h1 : ¬ x.toNat < y.toNat := by omega
        have h2 : ¬ y.toNat < x.toNat := by omega
        rcases ih ys with hc | hc
        · left; simp [h1, h2, hc]
        · right; simp [h1, h2, hc]
      · right; simp [h]

theorem charListLe_trans : ∀ a b c : List Char,
    charListLe a b = true → charListLe b c = true → charListLe a c = true := by
  intro a
  induction a with
  | nil => intro b c _ _; rfl
  | cons x xs ih =>
    intro b c hab hbc
    cases b with
    | nil => simp [charListLe] at hab
    | cons y ys =>
      cases c with
      | nil => simp [charListLe] at hbc
      | cons z zs =>
        simp only [charListLe] at hab hbc ⊢
        by_cases hxy : x.toNat < y.toNat
        · have hyz : ¬ z.toNat < y.toNat := by
            by_contra hzy
            simp only [hzy, if_neg (by omega : ¬ y.toNat < z.toNat), if_pos] at hbc
            exact Bool.false_ne_true hbc
          by_cases hyz2 : y.toNat < z.toNat
          · simp [show x.toNat < z.toNat by omega]
          · have : y.toNat = z.toNat := by omega
            simp [show x.toNat < z.toNat by omega]
        · by_cases hyx : y.toNat < x.toNat
          · simp only [if_neg hxy, if_pos hyx] at hab
            exact absurd hab Bool.false_ne_true
          · have hxyeq : x.toNat = y.toNat := by omega
            simp only [if_neg hxy, if_neg hyx] at hab
            by_cases hyz : y.toNat < z.toNat
            · simp [show x.toNat < z.toNat by omega]
            · by_cases hzy : z.toNat < y.toNat
              · simp only [if_neg hyz, if_pos hzy] at hbc
                exact absurd hbc Bool.false_ne_true
              · have : y.toNat = z.toNat := by omega
                have h1 : ¬ x.toNat < z.toNat := by omega
                have h2 : ¬ z.toNat < x.toNat := by omega
                simp only [if_neg hyz, if_neg hzy] at hbc
                simp only [if_neg h1, if_neg h2]
                exact ih ys zs hab hbc

instance : IsTotal String strle := ⟨fun a b => charListLe_total a.data b.data⟩

instance : IsTrans String strle := ⟨fun a b c => charListLe_trans a.data b.data c.data⟩

/-- Python sorted(set(l)): unique elements in ascending code-point order. -/
def pySortedSet (l : List String) : List String :=
  (l.dedup).insertionSort strle

theorem mem_pySortedSet {l : List String} {x : String} : x ∈ pySortedSet l ↔ x ∈ l := by
  unfold pySortedSet
  rw [(List.perm_insertionSort strle l.dedup).mem_iff, List.mem_dedup]

theorem nodup_pySortedSet (l : List String) : (pySortedSet l).Nodup :=
  (List.perm_insertionSort strle l.dedup).nodup_iff.mpr (List.nodup_dedup l)

theorem sorted_pySortedSet (l : List String) : (pySortedSet l).Pairwise strle :=
  List.sorted_insertionSort strle l.dedup

/-- Python dict built by a comprehension over pairs: lookup returns the value
of the LAST pair whose key equals k, or none. -/
def dictGet {α : Type} (pairs : List (String × α)) (k : String) : Option α :=
  (pairs.reverse.find? (fun p => p.1 == k)).map Prod.snd

theorem dictGet_isSome_iff {α : Type} (pairs : List (String × α)) (k : String) :
    (dictGet pairs k).isSome = true ↔ k ∈ pairs.map Prod.fst := by
  unfold dictGet
  rw [Option.isSome_map', List.find?_isSome]
  constructor
  · rintro ⟨p, hp, hpk⟩
    rw [List.mem_reverse] at hp
    have : p.1 = k := by simpa using hpk
    exact this ▸ List.mem_map_of_mem Prod.fst hp
  · intro hk
    rcases List.mem_map.mp hk with ⟨p, hp, hpk⟩
    exact ⟨p, List.mem_reverse.mpr hp, by simp [hpk]⟩

/-- Normalized column metadata as produced by every connector's get_columns
(base.py contract: column_name, data_type, length, precision, scale). -/
structure ColumnInfo where
  column_name : String
  data_type : String
  length : Option Int
  precision : Option Int
  scale : Option Int
deriving DecidableEq

/-- Normalized constraint metadata as produced by get_constraints
(base.py contract: constraint_name, constraint_type). -/
structure ConstraintInfo where
  constraint_name : String
  constraint_type : String
deriving DecidableEq

/-- Heterogeneous Python scalar stored in the source_value / target_value
cells of a result dict: a string, an integer, or None.  Python equality of
two such scalars of these types is equality of this sum type. -/
inductive Value where
  | str (v : String)
  | int (v : Int)
  | none
deriving DecidableEq

/-- Coerce an optional int attribute into a result cell (None stays None). -/
def Value.ofOptInt : Option Int → Value
  | Option.none => Value.none
  | Option.some v => Value.int v

/-- Coerce an optional string into a result cell (None stays None). -/
def Value.ofOptStr : Option String → Value
  | Option.none => Value.none
  | Option.some v => Value.str v

/-- Result dict of RowCountValidator.validate (row_count.py lines 45-52). -/
structure RowCountResult where
  schema : String
  table : String
  check_type : String
  source_value : Int
  target_value : Int
  status : String
deriving DecidableEq

/-- Result dict of ColumnValidator.validate (column.py lines 60-115). -/
structure ColumnResult where
  schema : String
  table : String
  column : String
  check_type : String
  source_value : Value
  target_value : Value
  status : String
deriving DecidableEq

/-- Result dict of ConstraintValidator.validate (constraint.py lines 64-99). -/
structure ConstraintResult where
  schema : String
  table : String
  constraint : String
  check_type : String
  source_value : Value
  target_value : Value
  status : String
deriving DecidableEq

/-- Result dict of RoutineValidator._validate_object (routine.py lines 61-67). -/
structure RoutineResult where
  object_type : String
  object_name : String
  source_value : String
  target_value : String
  status : String
deriving DecidableEq

/-- RowCountValidator.validate (row_count.py lines 16-52) applied to the two
fetched counts: one record, MATCH iff the counts are exactly equal. -/
def rowCountValidate (source_count target_count : Int) (schema table : String) :
    RowCountResult :=
  { schema := schema
    table := table
    check_type := "ROW_COUNT"
    source_value := source_count
    target_value := target_count
    status := if source_count = target_count then "MATCH" else "MISMATCH" }

/-- Loop body of ColumnValidator.validate (column.py lines 54-115) for one
name of the sorted union.  A column dict always carries its column_name key,
so Python truthiness of source_col / target_col is isSome of the lookup. -/
def columnEmit (schema table : String)
    (source_map target_map : List (String × ColumnInfo)) (column_name : String) :
    List ColumnResult :=
  match dictGet source_map column_name, dictGet target_map column_name with
  | some _, Option.none =>
      [{ schema := schema, table := table, column := column_name
         check_type := "COLUMN_EXISTENCE"
         source_value := Value.str "PRESENT", target_value := Value.str "MISSING"
         status := "MISMATCH" }]
  | Option.none, some _ =>
      [{ schema := schema, table := table, column := column_name
         check_type := "COLUMN_EXISTENCE"
         source_value := Value.str "MISSING", target_value := Value.str "PRESENT"
         status := "MISMATCH" }]
  | some source_col, some target_col =>
      [ { schema := schema, table := table, column := column_name
          check_type := "DATA_TYPE"
          source_value := Value.str source_col.data_type
          target_value := Value.str target_col.data_type
          status := if source_col.data_type = target_col.data_type
                    then "MATCH" else "MISMATCH" },
        { schema := schema, table := table, column := column_name
          check_type := "LENGTH"
          source_value := Value.ofOptInt source_col.length
          target_value := Value.ofOptInt target_col.length
          status := if source_col.length = target_col.length
                    then "MATCH" else "MISMATCH" },
        { schema := schema, table := table, column := column_name
          check_type := "PRECISION"
          source_value := Value.ofOptInt source_col.precision
          target_value := Value.ofOptInt target_col.precision
          status := if source_col.precision = target_col.precision
                    then "MATCH" else "MISMATCH" },
        { schema := schema, table := table, column := column_name
          check_type := "SCALE"
          source_value := Value.ofOptInt source_col.scale
          target_value := Value.ofOptInt target_col.scale
          status := if source_col.scale = target_col.scale
                    then "MATCH" else "MISMATCH" } ]
  | Option.none, Option.none => []

/-- ColumnValidator.validate (column.py lines 22-117) applied to the two
fetched column lists: build name-keyed maps (keys uppercased, later entries
win), traverse the sorted union of key sets, emit per-name records. -/
def columnValidate (source_columns target_columns : List ColumnInfo)
    (schema table : String) : List ColumnResult :=
  let source_map := source_columns.map (fun c => (pyUpper c.column_name, c))
  let target_map := target_columns.map (fun c => (pyUpper c.column_name, c))
  let all_columns :=
    pySortedSet (source_map.map Prod.fst ++ target_map.map Prod.fst)
  all_columns.flatMap (columnEmit schema table source_map target_map)

/-- Python truthiness of an optional string: None and "" are falsy. -/
def optStrTruthy : Option String → Bool
  | Option.none => false
  | Option.some s => !(s.data.isEmpty)

/-- Loop body of ConstraintValidator.validate (constraint.py lines 58-99) for
one name of the sorted union.  The two existence branches test Python
truthiness of the looked-up type strings; the present side's record cell
carries the constraint TYPE value itself, only the absent side gets the
"MISSING" sentinel. -/
def constraintEmit (schema table : String)
    (source_map target_map : List (String × String)) (constraint_name : String) :
    List ConstraintResult :=
  let src_type := dictGet source_map constraint_name
  let tgt_type := dictGet target_map constraint_name
  if optStrTruthy src_type && !(optStrTruthy tgt_type) then
    [{ schema := schema, table := table, constraint := constraint_name
       check_type := "CONSTRAINT_EXISTENCE"
       source_value := Value.ofOptStr src_type
       target_value := Value.str "MISSING"
       status := "MISMATCH" }]
  else if optStrTruthy tgt_type && !(optStrTruthy src_type) then
    [{ schema := schema, table := table, constraint := constraint_name
       check_type := "CONSTRAINT_EXISTENCE"
       source_value := Value.str "MISSING"
       target_value := Value.ofOptStr tgt_type
       status := "MISMATCH" }]
  else
    [{ schema := schema, table := table, constraint := constraint_name
       check_type := "CONSTRAINT_TYPE"
       source_value := Value.ofOptStr src_type
       target_value := Value.ofOptStr tgt_type
       status := if src_type = tgt_type then "MATCH" else "MISMATCH" }]

/-- ConstraintValidator.validate (constraint.py lines 20-101) applied to the
two fetched constraint lists: build name-to-type maps (keys uppercased, later
entries win), traverse the sorted union of key sets, emit one record per name. -/
def constraintValidate (source_constraints target_constraints : List ConstraintInfo)
    (schema table : String) : List ConstraintResult :=
  let source_map := source_constraints.map
    (fun c => (pyUpper c.constraint_name, c.constraint_type))
  let target_map := target_constraints.map
    (fun c => (pyUpper c.constraint_name, c.constraint_type))
  let all_constraints :=
    pySortedSet (source_map.map Prod.fst ++ target_map.map Prod.fst)
  all_constraints.flatMap (constraintEmit schema table source_map target_map)

/-- Loop body of RoutineValidator._validate_object (routine.py lines 47-67)
for one name of the sorted union of the two uppercased name sets. -/
def routineEmit (source_set target_set : List String) (object_type obj : String) :
    RoutineResult :=
  if source_set.contains obj && target_set.contains obj then
    { object_type := object_type, object_name := obj
      source_value := "PRESENT", target_value := "PRESENT", status := "MATCH" }
  else if source_set.contains obj then
    { object_type := object_type, object_name := obj
      source_value := "PRESENT", target_value := "MISSING", status := "MISMATCH" }
  else
    { object_type := object_type, object_name := obj
      source_value := "MISSING", target_value := "PRESENT", status := "MISMATCH" }

/-- RoutineValidator._validate_object (routine.py lines 21-69): uppercase both
name lists into sets, traverse the sorted union, and emit one existence record
per name with PRESENT/PRESENT (MATCH) or PRESENT/MISSING sentinels. -/
def routineValidateObject (source_objects target_objects : List String)
    (object_type : String) : List RoutineResult :=
  let source_set := source_objects.map pyUpper
  let target_set := target_objects.map pyUpper
  let all_objects := pySortedSet (source_set ++ target_set)
  all_objects.map (routineEmit source_set target_set object_type)

/-- RoutineValidator.validate (routine.py lines 71-115) applied to the six
fetched name lists: procedures, then functions, then triggers, each through
the shared _validate_object logic. -/
def routineValidate (source_procedures target_procedures
    source_functions target_functions
    source_triggers target_triggers : List String) : List RoutineResult :=
  routineValidateObject source_procedures target_procedures "PROCEDURE"
    ++ routineValidateObject source_functions target_functions "FUNCTION"
    ++ routineValidateObject source_triggers target_triggers "TRIGGER"

/-- Uppercased key list of a column snapshot (keys of the Python dict built
at column.py lines 48-49). -/
def colKeys (cols : List ColumnInfo) : List String :=
  cols.map (fun c => pyUpper c.column_name)

/-- Name-keyed map of a column snapshot (column.py lines 48-49). -/
def colMap (cols : List ColumnInfo) : List (String × ColumnInfo) :=
  cols.map (fun c => (pyUpper c.column_name, c))

/-- Uppercased key list of a constraint snapshot (constraint.py lines 46-53). -/
def consKeys (cs : List ConstraintInfo) : List String :=
  cs.map (fun c => pyUpper c.constraint_name)

/-- Name-to-type map of a constraint snapshot (constraint.py lines 46-53). -/
def consMap (cs : List ConstraintInfo) : List (String × String) :=
  cs.map (fun c => (pyUpper c.constraint_name, c.constraint_type))

theorem colMap_fst (cols : List ColumnInfo) :
    (colMap cols).map Prod.fst = colKeys cols := by
  simp [colMap, colKeys]

theorem consMap_fst (cs : List ConstraintInfo) :
    (consMap cs).map Prod.fst = consKeys cs := by
  simp [consMap, consKeys]

theorem charListLe_refl : ∀ l : List Char, charListLe l l = true := by
  intro l
  induction l with
  | nil => rfl
  | cons x xs ih => simp [charListLe, Nat.lt_irrefl, ih]

theorem strle_refl (s : String) : strle s s := charListLe_refl s.data

theorem pairwise_of_forall_mem {α : Type} {R : α → α → Prop} :
    ∀ {l : List α}, (∀ a ∈ l, ∀ b ∈ l, R a b) → l.Pairwise R := by
  intro l
  induction l with
  | nil => intro _; exact List.Pairwise.nil
  | cons x xs ih =>
    intro h
    refine List.Pairwise.cons ?_ (ih ?_)
    · intro b hb
      exact h x (List.mem_cons_self x xs) b (List.mem_cons_of_mem x hb)
    · intro a ha b hb
      exact h a (List.mem_cons_of_mem x ha) b (List.mem_cons_of_mem x hb)

theorem filter_flatMap_tag {β : Type} (f : String → List β) (key : β → String)
    (htag : ∀ n r, r ∈ f n → key r = n) (n : String) :
    ∀ (U : List String), U.Nodup →
      (U.flatMap f).filter (fun r => key r == n) = if n ∈ U then f n else [] := by
  intro U
  induction U with
  | nil => intro _; simp
  | cons m U ih =>
    intro hU
    rw [List.nodup_cons] at hU
    obtain ⟨hm, hU2⟩ := hU
    rw [List.flatMap_cons, List.filter_append, ih hU2]
    by_cases hnm : n = m
    · subst hnm
      have hfil : (f n).filter (fun r => key r == n) = f n :=
        List.filter_eq_self.mpr (fun r hr => by rw [htag n r hr]; exact beq_self_eq_true n)
      rw [hfil, if_neg hm, if_pos (List.mem_cons_self n U)]
      simp
    · have hfil : (f m).filter (fun r => key r == n) = [] := by
        rw [List.filter_eq_nil_iff]
        intro r hr
        rw [htag m r hr]
        simp [Ne.symm hnm]
      rw [hfil]
      simp [List.mem_cons, hnm]

theorem pairwise_key_flatMap {β : Type} (f : String → List β) (key : β → String)
    (htag : ∀ n r, r ∈ f n → key r = n) :
    ∀ (U : List String), U.Pairwise strle →
      ((U.flatMap f).map key).Pairwise strle := by
  intro U
  induction U with
  | nil => intro _; simp
  | cons m U ih =>
    intro hU
    rw [List.pairwise_cons] at hU
    obtain ⟨hrel, hU2⟩ := hU
    rw [List.flatMap_cons, List.map_append]
    apply List.pairwise_append.mpr
    refine ⟨?_, ih hU2, ?_⟩
    · have hall : ∀ x ∈ (f m).map key, x = m := by
        intro x hx
        rcases List.mem_map.mp hx with ⟨r, hr, hk⟩
        rw [← hk, htag m r hr]
      exact pairwise_of_forall_mem (fun a ha b hb => by
        rw [hall a ha, hall b hb]; exact strle_refl m)
    · intro x hx y hy
      have hxm : x = m := by
        rcases List.mem_map.mp hx with ⟨r, hr, hk⟩
        rw [← hk, htag m r hr]
      rcases List.mem_map.mp hy with ⟨r, hr, hk⟩
      rcases List.mem_flatMap.mp hr with ⟨n2, hn2, hrn⟩
      rw [← hk, htag n2 r hrn, hxm]
      exact hrel n2 hn2

theorem columnEmit_fields (schema table : String)
    (sm tm : List (String × ColumnInfo)) (n : String) :
    ∀ r ∈ columnEmit schema table sm tm n,
      r.schema = schema ∧ r.table = table ∧ r.column = n := by
  intro r hr
  unfold columnEmit at hr
  rcases hs : dictGet sm n with _ | sc <;> rcases ht : dictGet tm n with _ | tc <;>
    rw [hs, ht] at hr <;> simp at hr <;>
    first
      | (rcases hr with h | h | h | h <;> subst h <;> exact ⟨rfl, rfl, rfl⟩)
      | (subst hr; exact ⟨rfl, rfl, rfl⟩)

theorem constraintEmit_fields (schema table : String)
    (sm tm : List (String × String)) (n : String) :
    ∀ r ∈ constraintEmit schema table sm tm n,
      r.schema = schema ∧ r.table = table ∧ r.constraint = n := by
  intro r hr
  simp only [constraintEmit] at hr
  split at hr
  · simp at hr; subst hr; exact ⟨rfl, rfl, rfl⟩
  · split at hr <;> (simp at hr; subst hr; exact ⟨rfl, rfl, rfl⟩)

theorem dictGet_colMap_isSome (cols : List ColumnInfo) (n : String) :
    (dictGet (colMap cols) n).isSome = true ↔ n ∈ colKeys cols := by
  rw [dictGet_isSome_iff, colMap_fst]

theorem dictGet_consMap_isSome (cs : List ConstraintInfo) (n : String) :
    (dictGet (consMap cs) n).isSome = true ↔ n ∈ consKeys cs := by
  rw [dictGet_isSome_iff, consMap_fst]

theorem columnValidate_eq (src tgt : List ColumnInfo) (schema table : String) :
    columnValidate src tgt schema table =
      (pySortedSet (colKeys src ++ colKeys tgt)).flatMap
        (columnEmit schema table (colMap src) (colMap tgt)) := by
  unfold columnValidate colMap colKeys
  simp only [List.map_map]
  rfl

theorem constraintValidate_eq (src tgt : List ConstraintInfo) (schema table : String) :
    constraintValidate src tgt schema table =
      (pySortedSet (consKeys src ++ consKeys tgt)).flatMap
        (constraintEmit schema table (consMap src) (consMap tgt)) := by
  unfold constraintValidate consMap consKeys
  simp only [List.map_map]
  rfl

theorem filter_map_tag {β : Type} (f : String → β) (key : β → String)
    (htag : ∀ m, key (f m) = m) (n : String) :
    ∀ (U : List String), U.Nodup →
      (U.map f).filter (fun r => key r == n) = if n ∈ U then [f n] else [] := by
  intro U
  induction U with
  | nil => intro _; simp
  | cons m U ih =>
    intro hU
    rw [List.nodup_cons] at hU
    obtain ⟨hm, hU2⟩ := hU
    rw [List.map_cons, List.filter_cons]
    by_cases hnm : n = m
    · subst hnm
      rw [if_pos (by rw [htag n]; exact beq_self_eq_true n), ih hU2,
        if_neg hm, if_pos (List.mem_cons_self n U)]
    · rw [if_neg (by rw [htag m]; simp [Ne.symm hnm]), ih hU2]
      simp [List.mem_cons, hnm]

theorem columnValidate_filter (src tgt : List ColumnInfo) (schema table n : String) :
    (columnValidate src tgt schema table).filter (fun r => r.column == n) =
      if n ∈ colKeys src ++ colKeys tgt
      then columnEmit schema table (colMap src) (colMap tgt) n
      else [] := by
  rw [columnValidate_eq,
    filter_flatMap_tag (columnEmit schema table (colMap src) (colMap tgt))
      (fun r => r.column)
      (fun m r hr => (columnEmit_fields schema table (colMap src) (colMap tgt) m r hr).2.2)
      n _ (nodup_pySortedSet _)]
  by_cases h : n ∈ colKeys src ++ colKeys tgt
  · rw [if_pos (mem_pySortedSet.mpr h), if_pos h]
  · rw [if_neg (fun hc => h (mem_pySortedSet.mp hc)), if_neg h]

theorem constraintValidate_filter (src tgt : List ConstraintInfo) (schema table n : String) :
    (constraintValidate src tgt schema table).filter (fun r => r.constraint == n) =
      if n ∈ consKeys src ++ consKeys tgt
      then constraintEmit schema table (consMap src) (consMap tgt) n
      else [] := by
  rw [constraintValidate_eq,
    filter_flatMap_tag (constraintEmit schema table (consMap src) (consMap tgt))
      (fun r => r.constraint)
      (fun m r hr => (constraintEmit_fields schema table (consMap src) (consMap tgt) m r hr).2.2)
      n _ (nodup_pySortedSet _)]
  by_cases h : n ∈ consKeys src ++ consKeys tgt
  · rw [if_pos (mem_pySortedSet.mpr h), if_pos h]
  · rw [if_neg (fun hc => h (mem_pySortedSet.mp hc)), if_neg h]

theorem routineEmit_name (source_set target_set : List String) (ty obj : String) :
    (routineEmit source_set target_set ty obj).object_name = obj ∧
      (routineEmit source_set target_set ty obj).object_type = ty := by
  unfold routineEmit
  split
  · exact ⟨rfl, rfl⟩
  · split
    · exact ⟨rfl, rfl⟩
    · exact ⟨rfl, rfl⟩

theorem routineValidateObject_filter (s t : List String) (ty n : String) :
    (routineValidateObject s t ty).filter (fun r => r.object_name == n) =
      if n ∈ s.map pyUpper ++ t.map pyUpper
      then [routineEmit (s.map pyUpper) (t.map pyUpper) ty n]
      else [] := by
  unfold routineValidateObject
  rw [filter_map_tag (routineEmit (s.map pyUpper) (t.map pyUpper) ty)
    (fun r => r.object_name)
    (fun m => (routineEmit_name (s.map pyUpper) (t.map pyUpper) ty m).1)
    n _ (nodup_pySortedSet _)]
  by_cases h : n ∈ s.map pyUpper ++ t.map pyUpper
  · rw [if_pos (mem_pySortedSet.mpr h), if_pos h]
  · rw [if_neg (fun hc => h (mem_pySortedSet.mp hc)), if_neg h]

/-- Metadata provider snapshot for a run in which every query succeeds: the
data the BaseConnector query operations return (base.py lines 50-154). -/
structure Database where
  schemas : List String
  tables : String → List String
  row_count : String → String → Int
  columns : String → String → List ColumnInfo
  constraints : String → String → List ConstraintInfo
  procedures : List String
  functions : List String
  triggers : List String

/-- Discovery step of main (main.py lines 65-76): sorted intersection of the
two schema sets, and per common schema the sorted intersection of the two
table sets, flattened into (schema, table) pairs in traversal order. -/
def commonTablePairs (src tgt : Database) : List (String × String) :=
  (pySortedSet (src.schemas.filter (fun s => tgt.schemas.contains s))).flatMap
    (fun schema =>
      (pySortedSet ((src.tables schema).filter
        (fun t => (tgt.tables schema).contains t))).map
        (fun table => (schema, table)))

/-- Orchestrator main (main.py lines 59-104) on two all-queries-succeed
providers: the four result sequences handed to the reporting sink.  The
single Python loop appends into four independent lists, so each sequence
equals a separate traversal of the same (schema, table) pair list. -/
def mainPure (src tgt : Database) :
    List RowCountResult × List ColumnResult × List ConstraintResult × List RoutineResult :=
  let pairs := commonTablePairs src tgt
  ( pairs.map (fun p =>
      rowCountValidate (src.row_count p.1 p.2) (tgt.row_count p.1 p.2) p.1 p.2),
    pairs.flatMap (fun p =>
      columnValidate (src.columns p.1 p.2) (tgt.columns p.1 p.2) p.1 p.2),
    pairs.flatMap (fun p =>
      constraintValidate (src.constraints p.1 p.2) (tgt.constraints p.1 p.2) p.1 p.2),
    routineValidate src.procedures tgt.procedures
      src.functions tgt.functions src.triggers tgt.triggers )

/-- Metadata provider whose operations can fail (a raised exception is an
error value); matches the BaseConnector surface used by main.py. -/
structure ProviderE where
  connect : Except String Unit
  list_schemas : Except String (List String)
  list_tables : String → Except String (List String)
  get_row_count : String → String → Except String Int
  get_columns : String → String → Except String (List ColumnInfo)
  get_constraints : String → String → Except String (List ConstraintInfo)
  get_procedures : Except String (List String)
  get_functions : Except String (List String)
  get_triggers : Except String (List String)

/-- Table loop of main (main.py lines 76-90) over one common schema: threads
the three accumulators, stopping at the first failed provider query.  The
validators fetch through the connectors, so the per-table fetch order is
row counts, then columns, then constraints, source before target. -/
def mainTablesLoop (src tgt : ProviderE) (schema : String) :
    List String →
    List RowCountResult × List ColumnResult × List ConstraintResult →
    Except String (List RowCountResult × List ColumnResult × List ConstraintResult)
  | [], acc => Except.ok acc
  | table :: rest, (rcs, cols, cons) => do
    let source_count ← src.get_row_count schema table
    let target_count ← tgt.get_row_count schema table
    let source_columns ← src.get_columns schema table
    let target_columns ← tgt.get_columns schema table
    let source_constraints ← src.get_constraints schema table
    let target_constraints ← tgt.get_constraints schema table
    mainTablesLoop src tgt schema rest
      ( rcs ++ [rowCountValidate source_count target_count schema table],
        cols ++ columnValidate source_columns target_columns schema table,
        cons ++ constraintValidate source_constraints target_constraints schema table )

/-- Schema loop of main (main.py lines 70-90): per common schema, discover
the sorted intersection of tables and run the table loop. -/
def mainSchemasLoop (src tgt : ProviderE) :
    List String →
    List RowCountResult × List ColumnResult × List ConstraintResult →
    Except String (List RowCountResult × List ColumnResult × List ConstraintResult)
  | [], acc => Except.ok acc
  | schema :: rest, acc => do
    let source_tables ← src.list_tables schema
    let target_tables ← tgt.list_tables schema
    let common_tables := pySortedSet (source_tables.filter
      (fun t => target_tables.contains t))
    let acc2 ← mainTablesLoop src tgt schema common_tables acc
    mainSchemasLoop src tgt rest acc2

/-- Fallible prefix of main (main.py lines 56-95): connect both providers,
discover the schema intersection, run both loops, then the routine
validation.  Any failure short-circuits, exactly as a raised exception
propagates out of the straight-line Python code. -/
def mainBody (src tgt : ProviderE) :
    Except String
      (List RowCountResult × List ColumnResult × List ConstraintResult ×
        List RoutineResult) := do
  src.connect
  tgt.connect
  let source_schemas ← src.list_schemas
  let target_schemas ← tgt.list_schemas
  let common_schemas := pySortedSet (source_schemas.filter
    (fun s => target_schemas.contains s))
  let (rcs, cols, cons) ← mainSchemasLoop src tgt common_schemas ([], [], [])
  let source_procedures ← src.get_procedures
  let target_procedures ← tgt.get_procedures
  let source_functions ← src.get_functions
  let target_functions ← tgt.get_functions
  let source_triggers ← src.get_triggers
  let target_triggers ← tgt.get_triggers
  Except.ok (rcs, cols, cons,
    routineValidate source_procedures target_procedures
      source_functions target_functions source_triggers target_triggers)

/-- Observable outcome of one run of main. -/
structure RunOutcome where
  report : Option (List RowCountResult × List ColumnResult × List ConstraintResult ×
    List RoutineResult)
  source_closed : Bool
  target_closed : Bool
  error : Option String
deriving DecidableEq

/-- Full run of main (main.py lines 35-111).  main has no try/finally: the
reporter.write call (line 99) and the two close() calls (lines 107-108) come
textually after every fallible provider call, so they execute iff nothing
raised, and a raised error propagates to the caller with neither connection
closed and no report written. -/
def runMain (src tgt : ProviderE) : RunOutcome :=
  match mainBody src tgt with
  | Except.ok seqs =>
      { report := some seqs, source_closed := true, target_closed := true
        error := Option.none }
  | Except.error e =>
      { report := Option.none, source_closed := false, target_closed := false
        error := some e }

/-- Row of the Redshift catalog view information_schema.table_constraints. -/
structure PgConstraintRow where
  table_schema : String
  table_name : String
  constraint_name : String
  constraint_type : String
deriving DecidableEq

/-- RedshiftConnector.get_constraints (redshift.py lines 126-150): the SQL
filters rows by table_schema and table_name only — it has NO filter on
constraint_type — and maps each row to the normalized dict. -/
def redshiftGetConstraints (catalog : List PgConstraintRow)
    (schema table : String) : List ConstraintInfo :=
  (catalog.filter (fun r => r.table_schema == schema && r.table_name == table)).map
    (fun r => { constraint_name := r.constraint_name
                constraint_type := r.constraint_type })

/-- Row of the Oracle catalog view all_constraints. -/
structure OraConstraintRow where
  owner : String
  table_name : String
  constraint_name : String
  constraint_type : String
deriving DecidableEq

/-- OracleConnector.get_constraints (oracle.py lines 135-163): the SQL
filters rows by owner, table_name (both bound uppercased) and
constraint_type IN ('P', 'R', 'U'), and maps each row to the normalized dict. -/
def oracleGetConstraints (catalog : List OraConstraintRow)
    (schema table : String) : List ConstraintInfo :=
  (catalog.filter (fun r =>
      r.owner == pyUpper schema && r.table_name == pyUpper table &&
        (r.constraint_type == "P" || r.constraint_type == "R" ||
          r.constraint_type == "U"))).map
    (fun r => { constraint_name := r.constraint_name
                constraint_type := r.constraint_type })

/-- Provider whose every query succeeds with empty metadata. -/
def okProviderE : ProviderE where
  connect := Except.ok ()
  list_schemas := Except.ok []
  list_tables := fun _ => Except.ok []
  get_row_count := fun _ _ => Except.ok 0
  get_columns := fun _ _ => Except.ok []
  get_constraints := fun _ _ => Except.ok []
  get_procedures := Except.ok []
  get_functions := Except.ok []
  get_triggers := Except.ok []

/-- Provider whose schema discovery query raises. -/
def failingSchemasProvider : ProviderE :=
  { okProviderE with list_schemas := Except.error "connection reset" }

/-- C5: comparing a snapshot against itself yields only MATCH statuses across
all four comparators — row count, column, constraint, routine. -/
theorem C5_identity_only_match (cols : List ColumnInfo) (cs : List ConstraintInfo)
    (procs funcs trgs : List String) (cnt : Int) (schema table : String) :
    (rowCountValidate cnt cnt schema table).status = "MATCH" ∧
    (columnValidate cols cols schema table).all (fun r => r.status == "MATCH") = true ∧
    (constraintValidate cs cs schema table).all (fun r => r.status == "MATCH") = true ∧
    (routineValidate procs procs funcs funcs trgs trgs).all
      (fun r => r.status == "MATCH") = true := by
  have key : ∀ (l : List String) (ty : String),
      (routineValidateObject l l ty).all (fun r => r.status == "MATCH") = true := by
    intro l ty
    rw [List.all_eq_true]
    intro r hr
    simp only [routineValidateObject] at hr
    rcases List.mem_map.mp hr with ⟨n, hn, hrn⟩
    have hnl : n ∈ l.map pyUpper := by
      rcases List.mem_append.mp (mem_pySortedSet.mp hn) with h | h <;> exact h
    have hc : (l.map pyUpper).contains n = true := List.elem_eq_true_of_mem hnl
    rw [← hrn]
    unfold routineEmit
    rw [if_pos (by rw [hc]; rfl)]
    rfl
  refine ⟨by simp [rowCountValidate], ?_, ?_, ?_⟩
  · rw [List.all_eq_true]
    intro r hr
    rw [columnValidate_eq] at hr
    rcases List.mem_flatMap.mp hr with ⟨n, _, hrn⟩
    unfold columnEmit at hrn
    rcases h : dictGet (colMap cols) n with _ | sc <;> rw [h] at hrn
    · simp at hrn
    · simp at hrn
      rcases hrn with h1 | h1 | h1 | h1 <;> subst h1 <;> simp
  · rw [List.all_eq_true]
    intro r hr
    rw [constraintValidate_eq] at hr
    rcases List.mem_flatMap.mp hr with ⟨n, _, hrn⟩
    simp only [constraintEmit, Bool.and_not_self] at hrn
    simp at hrn
    subst hrn
    simp
  · simp only [routineValidate, List.all_append, Bool.and_eq_true]
    exact ⟨⟨key procs "PROCEDURE", key funcs "FUNCTION"⟩, key trgs "TRIGGER"⟩

/-- C1 counterexample: a constraint named PK1 of type PRIMARY_KEY present only
on the source side produces one CONSTRAINT_EXISTENCE MISMATCH record whose
source_value is the type string "PRIMARY_KEY", not the sentinel "PRESENT"
claimed by the spec. -/
theorem C1_counterexample :
    (constraintValidate
        [{ constraint_name := "PK1", constraint_type := "PRIMARY_KEY" }] [] "s" "t").map
        (fun r => (r.check_type, r.source_value, r.target_value, r.status)) =
      [("CONSTRAINT_EXISTENCE", Value.str "PRIMARY_KEY", Value.str "MISSING", "MISMATCH")] ∧
    Value.str "PRIMARY_KEY" ≠ Value.str "PRESENT" := by
  exact ⟨by decide, by decide⟩

/-- C1 amended: a constraint name present on exactly one side whose type value
on the present side is truthy (non-empty) yields exactly one
CONSTRAINT_EXISTENCE MISMATCH record; the ABSENT side gets the sentinel
"MISSING" while the PRESENT side carries its constraint type value. -/
theorem C1_amended (src tgt : List ConstraintInfo) (schema table n : String) :
    (∀ ty, dictGet (consMap src) n = some ty → optStrTruthy (some ty) = true →
      dictGet (consMap tgt) n = Option.none →
      (constraintValidate src tgt schema table).filter (fun r => r.constraint == n) =
        [{ schema := schema, table := table, constraint := n
           check_type := "CONSTRAINT_EXISTENCE"
           source_value := Value.str ty, target_value := Value.str "MISSING"
           status := "MISMATCH" }]) ∧
    (∀ ty, dictGet (consMap tgt) n = some ty → optStrTruthy (some ty) = true →
      dictGet (consMap src) n = Option.none →
      (constraintValidate src tgt schema table).filter (fun r => r.constraint == n) =
        [{ schema := schema, table := table, constraint := n
           check_type := "CONSTRAINT_EXISTENCE"
           source_value := Value.str "MISSING", target_value := Value.str ty
           status := "MISMATCH" }]) := by
  constructor
  · intro ty hsrc htr htgt
    have hmem : n ∈ consKeys src ++ consKeys tgt := by
      apply List.mem_append.mpr; left
      exact (dictGet_consMap_isSome src n).mp (by rw [hsrc]; rfl)
    rw [constraintValidate_filter, if_pos hmem]
    simp only [constraintEmit]
    rw [hsrc, htgt]
    rw [if_pos (by rw [htr]; rfl)]
    rfl
  · intro ty htgt htr hsrc
    have hmem : n ∈ consKeys src ++ consKeys tgt := by
      apply List.mem_append.mpr; right
      exact (dictGet_consMap_isSome tgt n).mp (by rw [htgt]; rfl)
    rw [constraintValidate_filter, if_pos hmem]
    simp only [constraintEmit]
    rw [hsrc, htgt]
    rw [if_neg (by simp [optStrTruthy]), if_pos (by rw [htr]; rfl)]
    rfl

/-- Witness for C1_amended: PK1 of type PRIMARY_KEY present only on the
source side yields the single CONSTRAINT_EXISTENCE record with the type on
the source cell and MISSING on the target cell. -/
theorem C1_amended_witness :
    (constraintValidate
        [{ constraint_name := "pk1", constraint_type := "PRIMARY_KEY" }] [] "s" "t").filter
        (fun r => r.constraint == "PK1") =
      [{ schema := "s", table := "t", constraint := "PK1"
         check_type := "CONSTRAINT_EXISTENCE"
         source_value := Value.str "PRIMARY_KEY", target_value := Value.str "MISSING"
         status := "MISMATCH" }] :=
  (C1_amended [{ constraint_name := "pk1", constraint_type := "PRIMARY_KEY" }] [] "s" "t"
    "PK1").1 "PRIMARY_KEY" (by decide) (by decide) (by decide)

/-- C10: a constraint of empty type string present on exactly one side falls
through the truthiness-guarded existence branches and is emitted as a
CONSTRAINT_TYPE MISMATCH record pairing the empty string with None; a
CONSTRAINT_EXISTENCE record is emitted only when exactly one side's type
value is truthy (non-empty). -/
theorem C10_empty_type_guard (src tgt : List ConstraintInfo) (schema table n : String) :
    (dictGet (consMap src) n = some "" → dictGet (consMap tgt) n = Option.none →
      (constraintValidate src tgt schema table).filter (fun r => r.constraint == n) =
        [{ schema := schema, table := table, constraint := n
           check_type := "CONSTRAINT_TYPE"
           source_value := Value.str "", target_value := Value.none
           status := "MISMATCH" }]) ∧
    (dictGet (consMap tgt) n = some "" → dictGet (consMap src) n = Option.none →
      (constraintValidate src tgt schema table).filter (fun r => r.constraint == n) =
        [{ schema := schema, table := table, constraint := n
           check_type := "CONSTRAINT_TYPE"
           source_value := Value.none, target_value := Value.str ""
           status := "MISMATCH" }]) ∧
    (∀ r ∈ constraintValidate src tgt schema table,
      r.check_type = "CONSTRAINT_EXISTENCE" →
        (optStrTruthy (dictGet (consMap src) r.constraint) = true ∧
          optStrTruthy (dictGet (consMap tgt) r.constraint) = false) ∨
        (optStrTruthy (dictGet (consMap src) r.constraint) = false ∧
          optStrTruthy (dictGet (consMap tgt) r.constraint) = true)) := by
  refine ⟨?_, ?_, ?_⟩
  · intro hsrc htgt
    have hmem : n ∈ consKeys src ++ consKeys tgt := by
      apply List.mem_append.mpr; left
      exact (dictGet_consMap_isSome src n).mp (by rw [hsrc]; rfl)
    rw [constraintValidate_filter, if_pos hmem]
    simp only [constraintEmit]
    rw [hsrc, htgt]
    rfl
  · intro htgt hsrc
    have hmem : n ∈ consKeys src ++ consKeys tgt := by
      apply List.mem_append.mpr; right
      exact (dictGet_consMap_isSome tgt n).mp (by rw [htgt]; rfl)
    rw [constraintValidate_filter, if_pos hmem]
    simp only [constraintEmit]
    rw [hsrc, htgt]
    rfl
  · intro r hr hex
    rw [constraintValidate_eq] at hr
    rcases List.mem_flatMap.mp hr with ⟨m, _, hrm⟩
    have hcon : r.constraint = m :=
      (constraintEmit_fields schema table (consMap src) (consMap tgt) m r hrm).2.2
    simp only [constraintEmit] at hrm
    split at hrm
    · rename_i hcond
      rw [Bool.and_eq_true, Bool.not_eq_true'] at hcond
      rw [hcon]
      exact Or.inl ⟨hcond.1, hcond.2⟩
    · split at hrm
      · rename_i hcond2
        rw [Bool.and_eq_true, Bool.not_eq_true'] at hcond2
        rw [hcon]
        exact Or.inr ⟨hcond2.2, hcond2.1⟩
      · exfalso
        simp at hrm
        subst hrm
        simp at hex

/-- Witness for C10_empty_type_guard: a constraint named c1 with empty type
present only on the source side is emitted as a CONSTRAINT_TYPE MISMATCH
record pairing the empty string with None. -/
theorem C10_empty_type_guard_witness :
    (constraintValidate [{ constraint_name := "c1", constraint_type := "" }] [] "s" "t").filter
        (fun r => r.constraint == "C1") =
      [{ schema := "s", table := "t", constraint := "C1"
         check_type := "CONSTRAINT_TYPE"
         source_value := Value.str "", target_value := Value.none
         status := "MISMATCH" }] :=
  (C10_empty_type_guard [{ constraint_name := "c1", constraint_type := "" }] [] "s" "t"
    "C1").1 (by decide) (by decide)

/-- C8: the Redshift connector's constraint query has no constraint_type
filter, so a CHECK constraint row flows into its normalized result, while the
Oracle connector's query keeps only kinds P, R and U. -/
theorem C8_redshift_check_leak :
    redshiftGetConstraints
        [{ table_schema := "public", table_name := "t1"
           constraint_name := "chk_positive", constraint_type := "CHECK" }] "public" "t1" =
      [{ constraint_name := "chk_positive", constraint_type := "CHECK" }] ∧
    oracleGetConstraints
        [{ owner := "S", table_name := "T"
           constraint_name := "CHK1", constraint_type := "C" }] "s" "t" = [] := by
  exact ⟨by decide, by decide⟩

/-- C9 counterexample: when the source provider's schema discovery fails, the
run surfaces the error and writes no report, but neither provider connection
is closed — refuting the claim that both connections are closed on failure. -/
theorem C9_counterexample :
    (runMain failingSchemasProvider okProviderE).error = some "connection reset" ∧
    (runMain failingSchemasProvider okProviderE).report = Option.none ∧
    (runMain failingSchemasProvider okProviderE).source_closed = false ∧
    (runMain failingSchemasProvider okProviderE).target_closed = false :=
  ⟨rfl, rfl, rfl, rfl⟩

/-- C9 amended: any provider query failure during discovery or comparison
aborts the whole run: the error surfaces to the caller and the reporting sink
is never invoked, but the two provider connections are NOT closed (main has
no try/finally, so the close calls are skipped). -/
theorem C9_amended (src tgt : ProviderE) (e : String)
    (h : mainBody src tgt = Except.error e) :
    (runMain src tgt).error = some e ∧
    (runMain src tgt).report = Option.none ∧
    (runMain src tgt).source_closed = false ∧
    (runMain src tgt).target_closed = false := by
  unfold runMain
  rw [h]
  exact ⟨rfl, rfl, rfl, rfl⟩

/-- Witness for C9_amended at a provider whose schema listing fails. -/
theorem C9_amended_witness :
    (runMain okProviderE failingSchemasProvider).error = some "connection reset" ∧
    (runMain okProviderE failingSchemasProvider).report = Option.none ∧
    (runMain okProviderE failingSchemasProvider).source_closed = false ∧
    (runMain okProviderE failingSchemasProvider).target_closed = false :=
  C9_amended okProviderE failingSchemasProvider "connection reset" rfl

theorem contains_pySortedSet (l : List String) (n : String) :
    (pySortedSet l).contains n = l.contains n :=
  Bool.coe_iff_coe.mp (by simp [List.elem_iff, mem_pySortedSet])

theorem any_key_flatMap {β : Type} (f : String → List β) (key : β → String)
    (htag : ∀ m r, r ∈ f m → key r = m) (n : String) (U : List String)
    (hne : ∀ m ∈ U, f m ≠ []) :
    (U.flatMap f).any (fun r => key r == n) = U.contains n := by
  apply Bool.coe_iff_coe.mp
  rw [List.any_eq_true]
  constructor
  · rintro ⟨r, hr, hpk⟩
    rcases List.mem_flatMap.mp hr with ⟨m, hm, hrm⟩
    have hkm : key r = m := htag m r hrm
    have hkn : key r = n := by simpa using hpk
    exact List.elem_eq_true_of_mem ((hkn ▸ hkm) ▸ hm)
  · intro hc
    have hnU : n ∈ U := by simpa [List.elem_iff] using hc
    rcases List.exists_mem_of_ne_nil _ (hne n hnU) with ⟨r, hr⟩
    exact ⟨r, List.mem_flatMap.mpr ⟨n, hnU, hr⟩,
      by rw [htag n r hr]; exact beq_self_eq_true n⟩

theorem columnEmit_ne_nil (schema table : String) (src tgt : List ColumnInfo)
    (n : String) (h : n ∈ colKeys src ++ colKeys tgt) :
    columnEmit schema table (colMap src) (colMap tgt) n ≠ [] := by
  unfold columnEmit
  rcases hs : dictGet (colMap src) n with _ | sc <;>
    rcases ht : dictGet (colMap tgt) n with _ | tc <;> simp
  rcases List.mem_append.mp h with hm | hm
  · exact absurd ((dictGet_colMap_isSome src n).mpr hm) (by rw [hs]; simp)
  · exact absurd ((dictGet_colMap_isSome tgt n).mpr hm) (by rw [ht]; simp)

theorem constraintEmit_ne_nil (schema table : String)
    (sm tm : List (String × String)) (n : String) :
    constraintEmit schema table sm tm n ≠ [] := by
  simp only [constraintEmit]
  split
  · simp
  · split <;> simp

/-- Every column record of a validation carries the given schema and table. -/
theorem columnValidate_schema_table (src tgt : List ColumnInfo) (schema table : String) :
    ∀ r ∈ columnValidate src tgt schema table, r.schema = schema ∧ r.table = table := by
  intro r hr
  rw [columnValidate_eq] at hr
  rcases List.mem_flatMap.mp hr with ⟨m, _, hrm⟩
  have h := columnEmit_fields schema table (colMap src) (colMap tgt) m r hrm
  exact ⟨h.1, h.2.1⟩

/-- Every constraint record of a validation carries the given schema and table. -/
theorem constraintValidate_schema_table (src tgt : List ConstraintInfo)
    (schema table : String) :
    ∀ r ∈ constraintValidate src tgt schema table,
      r.schema = schema ∧ r.table = table := by
  intro r hr
  rw [constraintValidate_eq] at hr
  rcases List.mem_flatMap.mp hr with ⟨m, _, hrm⟩
  have h := constraintEmit_fields schema table (consMap src) (consMap tgt) m r hrm
  exact ⟨h.1, h.2.1⟩

/-- Every (schema, table) pair traversed by main lies in the intersection of
the two providers' schema lists and, within that schema, of the two table
lists. -/
theorem commonTablePairs_mem (src tgt : Database) (p : String × String)
    (hp : p ∈ commonTablePairs src tgt) :
    p.1 ∈ src.schemas ∧ p.1 ∈ tgt.schemas ∧
      p.2 ∈ src.tables p.1 ∧ p.2 ∈ tgt.tables p.1 := by
  unfold commonTablePairs at hp
  rcases List.mem_flatMap.mp hp with ⟨schema, hs, hps⟩
  rcases List.mem_map.mp hps with ⟨table, htl, hpt⟩
  have hs2 := List.mem_filter.mp (mem_pySortedSet.mp hs)
  have ht2 := List.mem_filter.mp (mem_pySortedSet.mp htl)
  subst hpt
  refine ⟨hs2.1, by simpa [List.elem_iff] using hs2.2, ht2.1,
    by simpa [List.elem_iff] using ht2.2⟩

/-- C2: a column name on exactly one side yields exactly one COLUMN_EXISTENCE
MISMATCH record with PRESENT on the present side and MISSING on the absent
side and no attribute records for that name; a name present on both sides —
case-insensitively, so id and ID meet — yields no COLUMN_EXISTENCE record
and exactly the four attribute comparisons. -/
theorem C2_column_existence (src tgt : List ColumnInfo) (schema table n : String) :
    (n ∈ colKeys src → n ∉ colKeys tgt →
      (columnValidate src tgt schema table).filter (fun r => r.column == n) =
        [{ schema := schema, table := table, column := n
           check_type := "COLUMN_EXISTENCE"
           source_value := Value.str "PRESENT", target_value := Value.str "MISSING"
           status := "MISMATCH" }]) ∧
    (n ∉ colKeys src → n ∈ colKeys tgt →
      (columnValidate src tgt schema table).filter (fun r => r.column == n) =
        [{ schema := schema, table := table, column := n
           check_type := "COLUMN_EXISTENCE"
           source_value := Value.str "MISSING", target_value := Value.str "PRESENT"
           status := "MISMATCH" }]) ∧
    (n ∈ colKeys src → n ∈ colKeys tgt →
      ((columnValidate src tgt schema table).filter (fun r => r.column == n)).map
          (fun r => r.check_type) =
        ["DATA_TYPE", "LENGTH", "PRECISION", "SCALE"]) := by
  refine ⟨?_, ?_, ?_⟩
  · intro hs ht
    rcases Option.isSome_iff_exists.mp ((dictGet_colMap_isSome src n).mpr hs)
      with ⟨sc, hsc⟩
    have htc : dictGet (colMap tgt) n = Option.none :=
      Option.not_isSome_iff_eq_none.mp
        (fun hcontra => ht ((dictGet_colMap_isSome tgt n).mp hcontra))
    rw [columnValidate_filter, if_pos (List.mem_append.mpr (Or.inl hs))]
    unfold columnEmit
    rw [hsc, htc]
  · intro hs ht
    rcases Option.isSome_iff_exists.mp ((dictGet_colMap_isSome tgt n).mpr ht)
      with ⟨tc, htc⟩
    have hsc : dictGet (colMap src) n = Option.none :=
      Option.not_isSome_iff_eq_none.mp
        (fun hcontra => hs ((dictGet_colMap_isSome src n).mp hcontra))
    rw [columnValidate_filter, if_pos (List.mem_append.mpr (Or.inr ht))]
    unfold columnEmit
    rw [hsc, htc]
  · intro hs ht
    rcases Option.isSome_iff_exists.mp ((dictGet_colMap_isSome src n).mpr hs)
      with ⟨sc, hsc⟩
    rcases Option.isSome_iff_exists.mp ((dictGet_colMap_isSome tgt n).mpr ht)
      with ⟨tc, htc⟩
    rw [columnValidate_filter, if_pos (List.mem_append.mpr (Or.inl hs))]
    unfold columnEmit
    rw [hsc, htc]
    rfl

/-- Witness for C2_column_existence on the spec scenario: source has column
id, target has columns ID and note; NOTE yields the single MISSING/PRESENT
existence record, ID (present on both despite the case difference) yields
exactly the four attribute checks, and a source-only column X yields the
PRESENT/MISSING record. -/
theorem C2_column_existence_witness :
    ((columnValidate
        [{ column_name := "id", data_type := "INT", length := Option.none
           precision := some 10, scale := some 0 }]
        [{ column_name := "ID", data_type := "INT", length := Option.none
           precision := some 10, scale := some 0 },
         { column_name := "note", data_type := "VARCHAR", length := some 255
           precision := Option.none, scale := Option.none }] "s" "t").filter
        (fun r => r.column == "NOTE") =
      [{ schema := "s", table := "t", column := "NOTE"
         check_type := "COLUMN_EXISTENCE"
         source_value := Value.str "MISSING", target_value := Value.str "PRESENT"
         status := "MISMATCH" }]) ∧
    (((columnValidate
        [{ column_name := "id", data_type := "INT", length := Option.none
           precision := some 10, scale := some 0 }]
        [{ column_name := "ID", data_type := "INT", length := Option.none
           precision := some 10, scale := some 0 },
         { column_name := "note", data_type := "VARCHAR", length := some 255
           precision := Option.none, scale := Option.none }] "s" "t").filter
        (fun r => r.column == "ID")).map (fun r => r.check_type) =
      ["DATA_TYPE", "LENGTH", "PRECISION", "SCALE"]) ∧
    ((columnValidate
        [{ column_name := "x", data_type := "INT", length := Option.none
           precision := Option.none, scale := Option.none }] [] "s" "t").filter
        (fun r => r.column == "X") =
      [{ schema := "s", table := "t", column := "X"
         check_type := "COLUMN_EXISTENCE"
         source_value := Value.str "PRESENT", target_value := Value.str "MISSING"
         status := "MISMATCH" }]) := by
  refine ⟨?_, ?_, ?_⟩
  · exact (C2_column_existence _ _ "s" "t" "NOTE").2.1 (by decide) (by decide)
  · exact (C2_column_existence _ _ "s" "t" "ID").2.2 (by decide) (by decide)
  · exact (C2_column_existence _ _ "s" "t" "X").1 (by decide) (by decide)

/-- C3: a column name present on both sides yields exactly four records in
the fixed order DATA_TYPE, LENGTH, PRECISION, SCALE, each MATCH iff the
corresponding fields are exactly equal (a null field equals only a null
field); and the whole output sequence is ordered by sorted uppercased column
name (the attribute order within a name being the fixed four-record order). -/
theorem C3_column_attributes (src tgt : List ColumnInfo) (schema table n : String) :
    (∀ sc tc, dictGet (colMap src) n = some sc → dictGet (colMap tgt) n = some tc →
      (columnValidate src tgt schema table).filter (fun r => r.column == n) =
        [ { schema := schema, table := table, column := n
            check_type := "DATA_TYPE"
            source_value := Value.str sc.data_type
            target_value := Value.str tc.data_type
            status := if sc.data_type = tc.data_type then "MATCH" else "MISMATCH" },
          { schema := schema, table := table, column := n
            check_type := "LENGTH"
            source_value := Value.ofOptInt sc.length
            target_value := Value.ofOptInt tc.length
            status := if sc.length = tc.length then "MATCH" else "MISMATCH" },
          { schema := schema, table := table, column := n
            check_type := "PRECISION"
            source_value := Value.ofOptInt sc.precision
            target_value := Value.ofOptInt tc.precision
            status := if sc.precision = tc.precision then "MATCH" else "MISMATCH" },
          { schema := schema, table := table, column := n
            check_type := "SCALE"
            source_value := Value.ofOptInt sc.scale
            target_value := Value.ofOptInt tc.scale
            status := if sc.scale = tc.scale then "MATCH" else "MISMATCH" } ]) ∧
    ((columnValidate src tgt schema table).map (fun r => r.column)).Pairwise strle := by
  constructor
  · intro sc tc hsc htc
    have hs : n ∈ colKeys src :=
      (dictGet_colMap_isSome src n).mp (by rw [hsc]; rfl)
    rw [columnValidate_filter, if_pos (List.mem_append.mpr (Or.inl hs))]
    unfold columnEmit
    rw [hsc, htc]
  · rw [columnValidate_eq]
    exact pairwise_key_flatMap _ _
      (fun m r hr => (columnEmit_fields schema table (colMap src) (colMap tgt) m r hr).2.2)
      _ (sorted_pySortedSet _)

/-- Witness for C3_column_attributes: identical INT columns on both sides
produce the four attribute records, all MATCH, in the fixed order. -/
theorem C3_column_attributes_witness :
    (columnValidate
        [{ column_name := "id", data_type := "INT", length := Option.none
           precision := some 10, scale := some 0 }]
        [{ column_name := "ID", data_type := "INT", length := Option.none
           precision := some 10, scale := some 0 }] "s" "t").filter
        (fun r => r.column == "ID") =
      [ { schema := "s", table := "t", column := "ID", check_type := "DATA_TYPE"
          source_value := Value.str "INT", target_value := Value.str "INT"
          status := "MATCH" },
        { schema := "s", table := "t", column := "ID", check_type := "LENGTH"
          source_value := Value.none, target_value := Value.none
          status := "MATCH" },
        { schema := "s", table := "t", column := "ID", check_type := "PRECISION"
          source_value := Value.int 10, target_value := Value.int 10
          status := "MATCH" },
        { schema := "s", table := "t", column := "ID", check_type := "SCALE"
          source_value := Value.int 0, target_value := Value.int 0
          status := "MATCH" } ] := by
  have h := (C3_column_attributes
    [{ column_name := "id", data_type := "INT", length := Option.none
       precision := some 10, scale := some 0 }]
    [{ column_name := "ID", data_type := "INT", length := Option.none
       precision := some 10, scale := some 0 }] "s" "t" "ID").1
    { column_name := "id", data_type := "INT", length := Option.none
      precision := some 10, scale := some 0 }
    { column_name := "ID", data_type := "INT", length := Option.none
      precision := some 10, scale := some 0 }
    (by decide) (by decide)
  exact h.trans (by decide)

/-- C6: the identifier set driving each keyed comparator is exactly the union
of the two sides' normalized identifier sets: a record with a given
identifier exists iff that identifier occurs on at least one side. -/
theorem C6_driving_union (src tgt : List ColumnInfo) (csrc ctgt : List ConstraintInfo)
    (so tob : List String) (ty schema table n : String) :
    ((columnValidate src tgt schema table).any (fun r => r.column == n) =
      (colKeys src ++ colKeys tgt).contains n) ∧
    ((constraintValidate csrc ctgt schema table).any (fun r => r.constraint == n) =
      (consKeys csrc ++ consKeys ctgt).contains n) ∧
    ((routineValidateObject so tob ty).any (fun r => r.object_name == n) =
      (so.map pyUpper ++ tob.map pyUpper).contains n) := by
  refine ⟨?_, ?_, ?_⟩
  · rw [columnValidate_eq,
      any_key_flatMap _ _
        (fun m r hr => (columnEmit_fields schema table (colMap src) (colMap tgt) m r hr).2.2)
        n _
        (fun m hm => columnEmit_ne_nil schema table src tgt m (mem_pySortedSet.mp hm)),
      contains_pySortedSet]
  · rw [constraintValidate_eq,
      any_key_flatMap _ _
        (fun m r hr =>
          (constraintEmit_fields schema table (consMap csrc) (consMap ctgt) m r hr).2.2)
        n _
        (fun m _ => constraintEmit_ne_nil schema table (consMap csrc) (consMap ctgt) m),
      contains_pySortedSet]
  · have hmap : routineValidateObject so tob ty =
        (pySortedSet (so.map pyUpper ++ tob.map pyUpper)).flatMap
          (fun m => [routineEmit (so.map pyUpper) (tob.map pyUpper) ty m]) := by
      simp only [routineValidateObject]
      induction (pySortedSet (so.map pyUpper ++ tob.map pyUpper)) with
      | nil => rfl
      | cons m U ih => simp [ih]
    rw [hmap,
      any_key_flatMap _ _
        (fun m r hr => by
          rw [List.mem_singleton] at hr
          rw [hr]
          exact (routineEmit_name (so.map pyUpper) (tob.map pyUpper) ty m).1)
        n _ (fun m _ => by simp),
      contains_pySortedSet]

/-- C7: the routine comparator is three independent existence-only partitions
in the order PROCEDURE, FUNCTION, TRIGGER — filtering the combined output by
object_type recovers exactly the partition computed from that partition's
inputs alone — and within a partition the union of the uppercased name sets
is traversed in sorted order, each name yielding one record: MATCH with
PRESENT/PRESENT when in both sets, otherwise MISMATCH with PRESENT/MISSING
sentinels on the correct sides. -/
theorem C7_routine_partitions (sp tp sf tf st tt s t : List String) (ty n : String) :
    ((routineValidate sp tp sf tf st tt).filter
        (fun r => r.object_type == "PROCEDURE") =
      routineValidateObject sp tp "PROCEDURE") ∧
    ((routineValidate sp tp sf tf st tt).filter
        (fun r => r.object_type == "FUNCTION") =
      routineValidateObject sf tf "FUNCTION") ∧
    ((routineValidate sp tp sf tf st tt).filter
        (fun r => r.object_type == "TRIGGER") =
      routineValidateObject st tt "TRIGGER") ∧
    ((routineValidateObject s t ty).map (fun r => r.object_name) =
      pySortedSet (s.map pyUpper ++ t.map pyUpper)) ∧
    (n ∈ s.map pyUpper → n ∈ t.map pyUpper →
      (routineValidateObject s t ty).filter (fun r => r.object_name == n) =
        [{ object_type := ty, object_name := n
           source_value := "PRESENT", target_value := "PRESENT", status := "MATCH" }]) ∧
    (n ∈ s.map pyUpper → n ∉ t.map pyUpper →
      (routineValidateObject s t ty).filter (fun r => r.object_name == n) =
        [{ object_type := ty, object_name := n
           source_value := "PRESENT", target_value := "MISSING", status := "MISMATCH" }]) ∧
    (n ∉ s.map pyUpper → n ∈ t.map pyUpper →
      (routineValidateObject s t ty).filter (fun r => r.object_name == n) =
        [{ object_type := ty, object_name := n
           source_value := "MISSING", target_value := "PRESENT", status := "MISMATCH" }]) := by
  have hfilter_self : ∀ (a b : List String) (oty : String),
      (routineValidateObject a b oty).filter (fun r => r.object_type == oty) =
        routineValidateObject a b oty := by
    intro a b oty
    apply List.filter_eq_self.mpr
    intro r hr
    simp only [routineValidateObject] at hr
    rcases List.mem_map.mp hr with ⟨m, _, hrm⟩
    rw [← hrm, (routineEmit_name (a.map pyUpper) (b.map pyUpper) oty m).2]
    exact beq_self_eq_true oty
  have hfilter_other : ∀ (a b : List String) (oty oty2 : String), oty ≠ oty2 →
      (routineValidateObject a b oty).filter (fun r => r.object_type == oty2) = [] := by
    intro a b oty oty2 hne
    rw [List.filter_eq_nil_iff]
    intro r hr
    simp only [routineValidateObject] at hr
    rcases List.mem_map.mp hr with ⟨m, _, hrm⟩
    rw [← hrm, (routineEmit_name (a.map pyUpper) (b.map pyUpper) oty m).2]
    simp [hne]
  have hcontains : ∀ (l : List String) (m : String), m ∈ l → l.contains m = true :=
    fun l m h => List.elem_eq_true_of_mem h
  have hnotcontains : ∀ (l : List String) (m : String), m ∉ l → l.contains m = false :=
    fun l m h => by simpa [List.elem_iff] using h
  refine ⟨?_, ?_, ?_, ?_, ?_, ?_, ?_⟩
  · simp only [routineValidate, List.filter_append]
    rw [hfilter_self, hfilter_other sf tf "FUNCTION" "PROCEDURE" (by decide),
      hfilter_other st tt "TRIGGER" "PROCEDURE" (by decide)]
    simp
  · simp only [routineValidate, List.filter_append]
    rw [hfilter_self, hfilter_other sp tp "PROCEDURE" "FUNCTION" (by decide),
      hfilter_other st tt "TRIGGER" "FUNCTION" (by decide)]
    simp
  · simp only [routineValidate, List.filter_append]
    rw [hfilter_self, hfilter_other sp tp "PROCEDURE" "TRIGGER" (by decide),
      hfilter_other sf tf "FUNCTION" "TRIGGER" (by decide)]
    simp
  · simp only [routineValidateObject, List.map_map]
    have hcomp : ((fun r : RoutineResult => r.object_name) ∘
        routineEmit (s.map pyUpper) (t.map pyUpper) ty) = fun m => m :=
      funext (fun m => (routineEmit_name (s.map pyUpper) (t.map pyUpper) ty m).1)
    rw [hcomp, List.map_id']
  · intro hs ht
    rw [routineValidateObject_filter,
      if_pos (List.mem_append.mpr (Or.inl hs))]
    unfold routineEmit
    rw [if_pos (by rw [hcontains _ _ hs, hcontains _ _ ht]; rfl)]
  · intro hs ht
    rw [routineValidateObject_filter,
      if_pos (List.mem_append.mpr (Or.inl hs))]
    unfold routineEmit
    rw [if_neg (by rw [hcontains _ _ hs, hnotcontains _ _ ht]; simp),
      if_pos (by rw [hcontains _ _ hs])]
  · intro hs ht
    rw [routineValidateObject_filter,
      if_pos (List.mem_append.mpr (Or.inr ht))]
    unfold routineEmit
    rw [if_neg (by rw [hnotcontains _ _ hs]; simp),
      if_neg (by rw [hnotcontains _ _ hs]; simp)]

/-- Witness for C7_routine_partitions on the spec scenario: source has
trigger TRG_A, target has none; the TRIGGER partition yields the single
PRESENT/MISSING MISMATCH record, and filtering the combined output by
PROCEDURE recovers the procedure partition. -/
theorem C7_routine_partitions_witness :
    ((routineValidate ["p1"] ["p1"] [] [] ["TRG_A"] []).filter
        (fun r => r.object_type == "PROCEDURE") =
      routineValidateObject ["p1"] ["p1"] "PROCEDURE") ∧
    ((routineValidateObject ["TRG_A"] [] "TRIGGER").filter
        (fun r => r.object_name == "TRG_A") =
      [{ object_type := "TRIGGER", object_name := "TRG_A"
         source_value := "PRESENT", target_value := "MISSING"
         status := "MISMATCH" }]) := by
  have h := C7_routine_partitions ["p1"] ["p1"] [] [] ["TRG_A"] [] ["TRG_A"] []
    "TRIGGER" "TRG_A"
  exact ⟨h.1, h.2.2.2.2.2.1 (by decide) (by decide)⟩

/-- Source side of the spec scenario: schemas public and staging. -/
def scenarioSrcDB : Database where
  schemas := ["public", "staging"]
  tables := fun _ => ["t1"]
  row_count := fun _ _ => 5
  columns := fun _ _ => []
  constraints := fun _ _ => []
  procedures := []
  functions := []
  triggers := []

/-- Target side of the spec scenario: schemas public and archive. -/
def scenarioTgtDB : Database where
  schemas := ["public", "archive"]
  tables := fun _ => ["t1"]
  row_count := fun _ _ => 5
  columns := fun _ _ => []
  constraints := fun _ _ => []
  procedures := []
  functions := []
  triggers := []

/-- C4: the orchestrator traverses only the sorted intersection of schemas
and, per common schema, the sorted intersection of tables: every schema and
table named in any emitted table-level record is present on BOTH sides, so an
identifier unique to either side never appears in any result record and never
surfaces as a MISMATCH anywhere in the report. -/
theorem C4_intersection_scope (src tgt : Database) :
    (∀ r ∈ (mainPure src tgt).1,
      r.schema ∈ src.schemas ∧ r.schema ∈ tgt.schemas ∧
        r.table ∈ src.tables r.schema ∧ r.table ∈ tgt.tables r.schema) ∧
    (∀ r ∈ (mainPure src tgt).2.1,
      r.schema ∈ src.schemas ∧ r.schema ∈ tgt.schemas ∧
        r.table ∈ src.tables r.schema ∧ r.table ∈ tgt.tables r.schema) ∧
    (∀ r ∈ (mainPure src tgt).2.2.1,
      r.schema ∈ src.schemas ∧ r.schema ∈ tgt.schemas ∧
        r.table ∈ src.tables r.schema ∧ r.table ∈ tgt.tables r.schema) := by
  refine ⟨?_, ?_, ?_⟩
  · intro r hr
    simp only [mainPure] at hr
    rcases List.mem_map.mp hr with ⟨p, hp, hrp⟩
    have hfields : r.schema = p.1 ∧ r.table = p.2 := by
      rw [← hrp]; exact ⟨rfl, rfl⟩
    rw [hfields.1, hfields.2]
    exact commonTablePairs_mem src tgt p hp
  · intro r hr
    simp only [mainPure] at hr
    rcases List.mem_flatMap.mp hr with ⟨p, hp, hrp⟩
    have hfields := columnValidate_schema_table
      (src.columns p.1 p.2) (tgt.columns p.1 p.2) p.1 p.2 r hrp
    rw [hfields.1, hfields.2]
    exact commonTablePairs_mem src tgt p hp
  · intro r hr
    simp only [mainPure] at hr
    rcases List.mem_flatMap.mp hr with ⟨p, hp, hrp⟩
    have hfields := constraintValidate_schema_table
      (src.constraints p.1 p.2) (tgt.constraints p.1 p.2) p.1 p.2 r hrp
    rw [hfields.1, hfields.2]
    exact commonTablePairs_mem src tgt p hp

/-- Witness for C4_intersection_scope on the spec scenario (source schemas
public and staging, target schemas public and archive): the run emits the
row-count record for (public, t1), and its schema is on both sides — so
staging and archive can never be named. -/
theorem C4_intersection_scope_witness :
    rowCountValidate 5 5 "public" "t1" ∈ (mainPure scenarioSrcDB scenarioTgtDB).1 ∧
    "public" ∈ scenarioSrcDB.schemas ∧ "public" ∈ scenarioTgtDB.schemas ∧
    "t1" ∈ scenarioSrcDB.tables "public" ∧ "t1" ∈ scenarioTgtDB.tables "public" := by
  have hmem : rowCountValidate 5 5 "public" "t1" ∈
      (mainPure scenarioSrcDB scenarioTgtDB).1 := by decide
  have h := (C4_intersection_scope scenarioSrcDB scenarioTgtDB).1
    (rowCountValidate 5 5 "public" "t1") hmem
  exact ⟨hmem, h⟩

end DBMV
